import Mathlib

/-!
Verification development for the Linguistics (brackets-spellcheck) extension.

Strings are modelled as `List Char`.  JavaScript tri-valued results
(`true` / `false` / `null`) are modelled as `Option Bool`, with `none`
standing for `null`.  `toUpperCase` / `toLowerCase` are modelled on the
ASCII range (`Char.toUpper` / `Char.toLower`), which agrees with
JavaScript on every character appearing in the repository's data.
-/

namespace Linguistics

abbrev Str := List Char

/-- JS truthiness of a `true`/`false`/`null` value. -/
def truthy : Option Bool → Bool
  | some true => true
  | _ => false

/-! ## src/utils/Strings.js -/

/-- The characters that separate words (`_wordSeparators` in Strings.js). -/
def wordSeparators : Str :=
  "!\"#$%&()*+,-./:;<=>?@[\\]^_`\x7b|\x7d~ ∎®".data

/-- Source `isWordSeparator(char)` delegates to `contains(_wordSeparators, char)`,
which tests whether `char` occurs in the lower-cased separator string. -/
def isWordSeparator (c : Char) : Bool :=
  (wordSeparators.map Char.toLower).contains c

/-- Source `StringUtils.startsWith(str, prefix)` from Brackets, on char lists. -/
def startsWith (s p : Str) : Bool := List.isPrefixOf p s

/-- Source `StringUtils.endsWith(str, suffix)` from Brackets, on char lists. -/
def endsWith (s suffix : Str) : Bool := List.isSuffixOf suffix s

/-- Source `trimChar(string, char)`: strips every leading and trailing occurrence
of `char` (the regexes `^char+` and `char+$`; the escaping `replace` in the
source passes a plain string as pattern and is a no-op). -/
def trimChar (s : Str) (c : Char) : Str :=
  ((s.dropWhile (· == c)).reverse.dropWhile (· == c)).reverse

/-- JS `\w` character class (ASCII): `[A-Za-z0-9_]`. -/
def isWordChar (c : Char) : Bool :=
  c.isUpper || c.isLower || c.isDigit || c == '_'

/-- JS `\s` character class, restricted to the ASCII-range whitespace
characters. -/
def isJsSpace (c : Char) : Bool :=
  c == ' ' || c == '\t' || c == '\n' || c == '\r' || c == '\x0b' || c == '\x0c'

/-- ASCII uppercase letter, the `[A-Z]` class. -/
def isUpperAZ (c : Char) : Bool := c.isUpper

/-- Source `+match === 0` in the `toCamelCase` callback: `Number(match)` is `0`.
The matches this regex can produce are single (non-space) characters or
maximal whitespace runs, so the numeric value is `0` exactly for
whitespace-only matches and for the single digit `"0"`. -/
def matchIsNumericZero (m : Str) : Bool :=
  m.all isJsSpace || m == ['0']

/-- The replacement callback of `toCamelCase`: empty string for matches
whose numeric value is `0`, otherwise lower-case at index `0` and
upper-case elsewhere. -/
def camelCallback (m : Str) (i : Nat) : Str :=
  if matchIsNumericZero m then []
  else if i == 0 then m.map Char.toLower
  else m.map Char.toUpper

/-- Global left-to-right replacement for the regex
`/(?:^\w|[A-Z]|\b\w|\s+)/g` of `toCamelCase`.  `i` is the current string
index and `prev` the character before it (`none` at the start).  A single
word-constituent character matches when it is `[A-Z]`, at the string
start (`^\w`), or at a word boundary (`\b\w`).  Whitespace matches as a
maximal run (`\s+`), whose replacement is always empty (its numeric value
is `0`): consuming the run one character at a time with no output is
therefore equivalent and keeps the recursion structural. -/
def camelGo (i : Nat) (prev : Option Char) : Str → Str
  | [] => []
  | c :: rest =>
    (if isUpperAZ c || (isWordChar c && (i == 0 || !(prev.elim false isWordChar))) then
      camelCallback [c] i
    else if isJsSpace c then []
    else [c]) ++ camelGo (i + 1) (some c) rest

/-- Source `toCamelCase(string)` from Strings.js. -/
def toCamelCase (s : Str) : Str := camelGo 0 none s

/-- The inner scanning loop of `occurrences`: `indexOf` from the current
position, stepping by the pattern length after each (non-overlapping) hit.
`skip` counts characters still to be jumped over after a hit, keeping the
recursion structural. -/
def occGo (sub : Str) : Str → Nat → Nat
  | [], _ => 0
  | _ :: rest, skip + 1 => occGo sub rest skip
  | c :: rest, 0 =>
    if sub.isPrefixOf (c :: rest) then 1 + occGo sub rest (sub.length - 1)
    else occGo sub rest 0

/-- Source `occurrences(string, subString, false)` from Strings.js. -/
def occurrences (s sub : Str) : Nat :=
  if sub.length = 0 then s.length + 1 else occGo sub s 0

/-- The space-marked intermediate string built by `isCamelCase`: every
character equal to its own upper-casing is replaced by a space followed by
its lower-casing. -/
def camelTempString (s : Str) : Str :=
  s.foldr (fun c acc => (if c.toUpper == c then [' ', c.toLower] else [c]) ++ acc) []

/-- Source `isCamelCase(string)` from Strings.js. -/
def isCamelCase (s : Str) : Bool :=
  let t := camelTempString s
  if occurrences t [' '] == 0 then false
  else toCamelCase t == s

/-- Source `splitByUpperCase(string)`: `string.split(/(?=[A-Z])/)`, splitting
before every ASCII uppercase letter (JS `split` does not create an empty
leading piece for a look-ahead match at index 0). -/
def splitByUpperCaseGo (cur : Str) : Str → List Str
  | [] => [cur.reverse]
  | c :: rest =>
    if isUpperAZ c && !(cur.isEmpty) then cur.reverse :: splitByUpperCaseGo [c] rest
    else splitByUpperCaseGo (c :: cur) rest

/-- Source `splitByUpperCase(string)` from Strings.js. -/
def splitByUpperCase (s : Str) : List Str := splitByUpperCaseGo [] s

/-! ## ECMAScript `parseFloat`, as used by `_hasCorrectSpelling` -/

/-- Source `!isNaN(parseFloat(word))`: `parseFloat` skips leading whitespace and
returns `NaN` exactly when the remainder does not begin with a decimal
literal — an optional sign followed by a digit, a dot-digit, or the word
`Infinity`. -/
def jsParseFloatIsNum (w : Str) : Bool :=
  let t := w.dropWhile isJsSpace
  let t2 := match t with
    | c :: r => if c == '+' || c == '-' then r else t
    | [] => []
  match t2 with
  | [] => false
  | c :: r =>
    c.isDigit ||
    (c == '.' && (match r with | d :: _ => d.isDigit | [] => false)) ||
    List.isPrefixOf "Infinity".data t2

/-! ## src/spelling/SpellChecker.js — the heuristic classifier -/

/-- Source `_commonProgrammingKeywords` from SpellChecker.js. -/
def commonProgrammingKeywords : List Str :=
  ["foreach".data, "json".data, "aff".data, "dic".data, "url".data, "src".data]

/-- Source `_isCommonTerm(word)` from SpellChecker.js. -/
def isCommonTerm (word : Str) : Bool := commonProgrammingKeywords.contains word

/-- Source `word.toUpperCase()` (ASCII model). -/
def jsToUpperStr (s : Str) : Str := s.map Char.toUpper

/-- The classifier's environment: the module-level flags of
SpellChecker.js together with `DictionaryManager.check` for the active
locale, abstracted as a function returning `null`/`true`/`false`. -/
structure SpellEnv where
  initialized : Bool
  spellingIgnoreUppercase : Bool
  attemptIntelligentQuoteDetection : Bool
  automaticallyDetectCamelCaseWords : Bool
  dmCheck : Str → Option Bool

/-- Source `_checkSpellingOfCamelCaseWord(word)`: every uppercase-split part must
pass the (truthy) dictionary check. -/
def checkSpellingOfCamelCaseWord (env : SpellEnv) (word : Str) : Bool :=
  (splitByUpperCase word).all fun part => truthy (env.dmCheck part)

/-- The value of `_quotesSeemCorrect` / `_doubleQuotesSeemCorrect`:
JS `true` (may be correct, keep processing), `false` (confirmed
incorrect) or `-1` (confirmed correct). -/
inductive QuoteVerdict where
  | seemsOk
  | definitelyWrong
  | definitelyRight
deriving DecidableEq

/-- Source `_checkSpellingBetweenCharacter(word, character)` from SpellChecker.js.
`_seemsCorrect` starts as `null` and may be set to a boolean (camel-case
branch) or to the tri-valued result of `DictionaryManager.check`; a
`null` check result is indistinguishable from the unset state. -/
def checkSpellingBetweenCharacter (env : SpellEnv) (word : Str) (character : Char) :
    QuoteVerdict :=
  let seemsCorrect : Option Bool :=
    if startsWith word [character] && endsWith word [character] then
      let baseWord := trimChar word character
      if isCamelCase baseWord then some (checkSpellingOfCamelCaseWord env baseWord)
      else env.dmCheck baseWord
    else if endsWith word [character] then
      env.dmCheck (word.dropLast)
    else if startsWith word [character] then
      env.dmCheck (word.drop 1)
    else none
  match seemsCorrect with
  | some false => .definitelyWrong
  | some true => .definitelyRight
  | none => .seemsOk

/-- The quote-detection and camel-case tail of `_hasCorrectSpelling`
(everything after the ignore-uppercase block). -/
def quoteAndCamelPart (env : SpellEnv) (word : Str) : Option Bool :=
  let q1 :=
    if env.attemptIntelligentQuoteDetection &&
        (startsWith word ['\''] || endsWith word ['\'']) then
      checkSpellingBetweenCharacter env word '\''
    else QuoteVerdict.seemsOk
  let q2 :=
    if env.attemptIntelligentQuoteDetection &&
        (startsWith word ['"'] || endsWith word ['"']) then
      checkSpellingBetweenCharacter env word '"'
    else QuoteVerdict.seemsOk
  if q1 == .definitelyRight || q2 == .definitelyRight then some true
  else if q1 == .definitelyWrong || q2 == .definitelyWrong then some false
  else if env.automaticallyDetectCamelCaseWords && isCamelCase word then
    some (checkSpellingOfCamelCaseWord env word)
  else env.dmCheck word

/-- Source `_hasCorrectSpelling(word)` from SpellChecker.js.  The result is the
JS value returned by the source function: a boolean from the heuristics,
or the tri-valued result of `DictionaryManager.check` from the fallback
and possessive branches (`none` = JS `null`). -/
def hasCorrectSpelling (env : SpellEnv) (word : Str) : Option Bool :=
  if isCommonTerm word then some true
  else if jsParseFloatIsNum word then some true
  else if env.spellingIgnoreUppercase && word == jsToUpperStr word then some true
  else if env.spellingIgnoreUppercase && endsWith word ['\'', 's'] &&
      (word.dropLast.dropLast == jsToUpperStr (word.dropLast.dropLast)) then some true
  else if env.spellingIgnoreUppercase && endsWith word ['\''] &&
      !(startsWith word ['\'']) &&
      (word.take 1 == jsToUpperStr (word.take 1)) then
    env.dmCheck word.dropLast
  else quoteAndCamelPart env word

/-! ## src/spelling/UtilityManager.js — the ignore-rule engine -/

/-- A parsed ignore-rule file.  Optional fields model JS properties that
may be absent (`hasOwnProperty` / `typeof undefined` checks). -/
structure IgnoreRule where
  ignore : List Str
  ignoreAfter : Option Str := none
  ignoreMode : Option (List Str) := none
  ignoreWhenDocumentContains : Option (List Str) := none
  mustBeManuallyLoaded : Option Bool := none

/-- The UtilityManager's module-level state. -/
structure UtilityState where
  alwaysIgnoreFiles : List IgnoreRule
  alwaysIgnoreCachedList : List Str
  ignoreOnlyWithCondition : List IgnoreRule
  currentModeName : Str
  currentDocumentContents : Option Str

/-- The initial UtilityManager state: the cached always-ignore list starts
as `["alice"]`, the mode as `"Mode.all"`, and no document contents. -/
def initUtilityState : UtilityState :=
  { alwaysIgnoreFiles := []
    alwaysIgnoreCachedList := ["alice".data]
    ignoreOnlyWithCondition := []
    currentModeName := "Mode.all".data
    currentDocumentContents := none }

/-- Source `_containsCondition(data)`: some condition property is present and
non-empty. -/
def containsCondition (r : IgnoreRule) : Bool :=
  (match r.ignoreAfter with | some s => !s.isEmpty | none => false) ||
  (match r.ignoreMode with | some l => !l.isEmpty | none => false) ||
  (match r.ignoreWhenDocumentContains with | some l => !l.isEmpty | none => false)

/-- Source `_loadUtilityFile` (success path) from UtilityManager.js.  The source
also evaluates `_alwaysIgnoreCachedList.concat(utilityData.ignore)`, but
`Array.prototype.concat` returns a new array without mutating its
receiver and the result is discarded, so the cached list is unchanged. -/
def loadUtilityFile (st : UtilityState) (r : IgnoreRule) : UtilityState :=
  if !containsCondition r then
    { st with alwaysIgnoreFiles := st.alwaysIgnoreFiles ++ [r] }
  else
    { st with ignoreOnlyWithCondition := st.ignoreOnlyWithCondition ++ [r] }

/-- Source `_loadUtilityFile` as the spec describes it: the words of an
unconditional rule file are merged into the always-active ignore set
(i.e. the `concat` result is assigned back). -/
def loadUtilityFileSpec (st : UtilityState) (r : IgnoreRule) : UtilityState :=
  if !containsCondition r then
    { st with alwaysIgnoreFiles := st.alwaysIgnoreFiles ++ [r]
              alwaysIgnoreCachedList := st.alwaysIgnoreCachedList ++ r.ignore }
  else
    { st with ignoreOnlyWithCondition := st.ignoreOnlyWithCondition ++ [r] }

/-- Source `_isValidMode(ignoreList)` from UtilityManager.js (the mode name is a
string in this model, so the `String(_currentModeName) === "null"` leg
compares against the literal string `"null"`). -/
def isValidMode (st : UtilityState) (r : IgnoreRule) : Bool :=
  let modes := r.ignoreMode.getD []
  modes.contains "Mode.all".data || modes.contains st.currentModeName ||
    (st.currentModeName == "null".data && modes.contains "Mode.all".data)

/-- Source `_utilityMustBeLoadedManually(ignoreList)` from UtilityManager.js. -/
def utilityMustBeLoadedManually (r : IgnoreRule) : Bool :=
  match r.mustBeManuallyLoaded with
  | some b => b
  | none => false

/-- Source `_checkIgnoreAfter(ignoreList, beforeContext, word)`: `true` when the
rule has a non-empty `ignoreAfter` equal to the before-context and the
word is in its ignore list; `null` otherwise.  Callers only test the
result against `null`, so a `Bool` capturing "returned `true`" suffices. -/
def checkIgnoreAfter (r : IgnoreRule) (beforeContext word : Str) : Bool :=
  match r.ignoreAfter with
  | some s => !s.isEmpty && s == beforeContext && r.ignore.contains word
  | none => false

/-- Source `haystack.indexOf(needle) > -1`: substring occurrence test. -/
def containsSubstring (haystack needle : Str) : Bool :=
  match haystack with
  | [] => needle.isEmpty
  | _ :: rest => needle.isPrefixOf haystack || containsSubstring rest needle

/-- Source `_shouldWordBeIgnoredBasedOnDocumentContents(ignoreList, word)`:
`true` when the rule has a non-empty document-contains list, the current
document is set, some configured substring occurs in it, and the word is
in the rule's ignore list; `null` otherwise. -/
def shouldWordBeIgnoredBasedOnDocumentContents (st : UtilityState) (r : IgnoreRule)
    (word : Str) : Bool :=
  match r.ignoreWhenDocumentContains with
  | some l =>
    !l.isEmpty &&
    (match st.currentDocumentContents with
     | some doc => l.any (fun s => containsSubstring doc s) && r.ignore.contains word
     | none => false)
  | none => false

/-- The per-rule test of `_shouldWordBeIgnoredWithContext`'s loop body. -/
def conditionalRuleFires (st : UtilityState) (r : IgnoreRule)
    (word beforeContext : Str) : Bool :=
  checkIgnoreAfter r beforeContext word ||
  ((match r.ignoreMode with | some l => !l.isEmpty | none => false) &&
    isValidMode st r && !utilityMustBeLoadedManually r &&
    (checkIgnoreAfter r beforeContext word ||
     shouldWordBeIgnoredBasedOnDocumentContents st r word ||
     r.ignore.contains word))

/-- Source `_shouldWordBeIgnoredWithContext(word, beforeContext)`: the first
conditional rule that fires short-circuits to `true`. -/
def shouldWordBeIgnoredWithContext (st : UtilityState) (word beforeContext : Str) :
    Bool :=
  st.ignoreOnlyWithCondition.any fun r => conditionalRuleFires st r word beforeContext

/-- Source `shouldIgnore(word, beforeContext)` from UtilityManager.js. -/
def shouldIgnore (st : UtilityState) (word beforeContext : Str) : Bool :=
  if st.alwaysIgnoreCachedList.contains word then true
  else if beforeContext.isEmpty then false
  else shouldWordBeIgnoredWithContext st word beforeContext

/-! ## The CodeMirror overlay (`getOverlay().token`) -/

/-- The module-level scanner state of SpellChecker.js:
`_lastWordSeparatorDirty` and `_lastWordSeparator`. -/
structure ScanState where
  lastWordSeparatorDirty : Bool
  lastWordSeparator : Str

/-- Scanner state at module load: the dirty flag starts `true` and the
separator buffer empty. -/
def initScanState : ScanState := { lastWordSeparatorDirty := true, lastWordSeparator := [] }

/-- The CSS classes returned for a flagged word. -/
def errorStyle : Str := "alice-error-visualization alice-spelling-visualization".data

/-- Result of one `token(stream, state)` call: the returned style (or JS
`null`), the updated module state, the unconsumed remainder of the
stream, and — when a word was scanned — the word together with the
before-context it was checked against. -/
structure TokenResult where
  style : Option Str
  state : ScanState
  rest : Str
  emitted : Option (Str × Str)

/-- One call of the overlay's `token` function.  The stream is the list
of not-yet-consumed characters; `peek` on an exhausted stream yields
JS `undefined`, for which `isString` is `false` and `isWordSeparator`
is `false`. -/
def tokenStep (env : SpellEnv) (ust : UtilityState) (st : ScanState) (stream : Str) :
    TokenResult :=
  let st1 := if st.lastWordSeparatorDirty then
    { lastWordSeparatorDirty := false, lastWordSeparator := [] } else st
  if !env.initialized then
    { style := none, state := st1, rest := [], emitted := none }
  else
    match stream with
    | [] =>
      -- peek() is undefined: the separator test and the word loop both
      -- fall through immediately, so the word is "" and nothing advances.
      -- The two source returns differ only in the style value.
      let word : Str := []
      let flagged :=
        !truthy (hasCorrectSpelling env word) && !shouldIgnore ust word st1.lastWordSeparator
      { style := if flagged then some errorStyle else none
        state := { st1 with lastWordSeparatorDirty := true }
        rest := [], emitted := some (word, st1.lastWordSeparator) }
    | c :: cs =>
      if isWordSeparator c then
        { style := none
          state := { st1 with lastWordSeparator := st1.lastWordSeparator ++ [c] }
          rest := cs, emitted := none }
      else
        let word := (c :: cs).takeWhile (fun ch => !isWordSeparator ch)
        let rest := (c :: cs).dropWhile (fun ch => !isWordSeparator ch)
        let flagged :=
          !truthy (hasCorrectSpelling env word) && !shouldIgnore ust word st1.lastWordSeparator
        { style := if flagged then some errorStyle else none
          state := { st1 with lastWordSeparatorDirty := true }
          rest := rest, emitted := some (word, st1.lastWordSeparator) }

/-! ## src/spelling/DictionaryManager.js and ProfileManager.js -/

/-- The external Typo collaborator for one locale: `check` and `suggest`. -/
structure TypoModel where
  check : Str → Bool
  suggestions : Str → List Str

/-- The JS value of the `affixLoaded` / `dictionaryLoaded` fields:
`false` (pending), `true` (loaded), `null` (failed). -/
inductive HalfState where
  | pending
  | loaded
  | failed
deriving DecidableEq

/-- One record of the `_dictionaries` table. -/
structure DictEntry where
  initialized : Bool
  dictionaryLoaded : HalfState
  affixLoaded : HalfState
  affixData : Option Str
  dictionaryData : Option Str
  typo : Option TypoModel

/-- One item of a profile's `items` array (`type` is `"dictionary"`,
`"utility"` or `"programming"`; `check` iterates items without consulting
it). -/
structure ProfileItem where
  name : Str
  type : Str

/-- The notifications dispatched by DictionaryManager. -/
inductive REvent where
  | dictionaryLoaded (locale : Str)
  | dictionaryUnloaded (locale : Str)
  | dictionariesUnloaded
  | dictionaryFailedToLoad (locale : Str)
deriving DecidableEq

/-- A JS runtime fault (here: reading a property of `null`). -/
inductive JsFault where
  | nullDereference
deriving DecidableEq

/-- The DictionaryManager's module state for the locales in play,
together with the ProfileManager's profile table.  `typoConstructions`
counts evaluations of `new Typo(...)`. -/
structure Registry where
  defaultLocale : Str
  dictionaries : List (Str × DictEntry)
  dictionariesBeingLoaded : List Str
  profiles : List (Str × List ProfileItem)
  profilesInitialized : Bool
  events : List REvent
  typoConstructions : Nat

/-- Association-list lookup (`_dictionaries[localeName]` etc.). -/
def assocFind {β : Type} (l : List (Str × β)) (k : Str) : Option β :=
  match l with
  | [] => none
  | (k', v) :: rest => if k' = k then some v else assocFind rest k

/-- Association-list in-place update; no effect when the key is absent
(the source only updates entries it has created). -/
def assocUpdate {β : Type} (l : List (Str × β)) (k : Str) (f : β → β) :
    List (Str × β) :=
  match l with
  | [] => []
  | (k', v) :: rest =>
    if k' = k then (k', f v) :: rest else (k', v) :: assocUpdate rest k f

/-- Association-list removal (`delete _dictionaries[localeName]`). -/
def assocRemove {β : Type} (l : List (Str × β)) (k : Str) : List (Str × β) :=
  match l with
  | [] => []
  | (k', v) :: rest =>
    if k' = k then rest else (k', v) :: assocRemove rest k

/-- Association-list assignment (`_dictionaries[localeName] = {...}`). -/
def assocSet {β : Type} (l : List (Str × β)) (k : Str) (v : β) : List (Str × β) :=
  match l with
  | [] => [(k, v)]
  | (k', v') :: rest =>
    if k' = k then (k', v) :: rest else (k', v') :: assocSet rest k v

/-- Source `ProfileManager.hasProfile(profileName)`. -/
def hasProfile (reg : Registry) (name : Str) : Bool :=
  (assocFind reg.profiles name).isSome

/-- Source `ProfileManager.getProfileItems(profileName)`: `null` unless the
ProfileManager is initialized and the profile exists. -/
def getProfileItems (reg : Registry) (name : Str) : Option (List ProfileItem) :=
  if reg.profilesInitialized && hasProfile reg name then assocFind reg.profiles name
  else none

/-- Source `hasDictionary(localeName, safeMode)` from DictionaryManager.js. -/
def hasDictionary (reg : Registry) (localeName : Str) (safeMode : Bool) : Bool :=
  match assocFind reg.dictionaries localeName with
  | none => false
  | some e => if !safeMode then true else e.initialized

/-- Source `unloadDictionary(localeName)`: drop the entry and trigger
`dictionaryUnloaded`. -/
def unloadDictionary (reg : Registry) (localeName : Str) : Registry :=
  { reg with dictionaries := assocRemove reg.dictionaries localeName
             events := reg.events ++ [REvent.dictionaryUnloaded localeName] }

/-- The fresh `LexiconEntry` created by `_loadDictionaryFilesForLocale`. -/
def freshEntry : DictEntry :=
  { initialized := false
    dictionaryLoaded := .pending
    affixLoaded := .pending
    affixData := none
    dictionaryData := none
    typo := none }

/-- Source `loadDictionary(localeName)` from DictionaryManager.js: bail out when
the locale is already being loaded, names a profile, or already has an
entry; otherwise create a fresh entry and register the locale as being
loaded (`FileSystem.getFileForPath` always yields a truthy File object,
so `_loadDictionaryFilesForLocale` always takes its first branch). -/
def loadDictionary (reg : Registry) (localeName : Str) : Registry :=
  if reg.dictionariesBeingLoaded.contains localeName then reg
  else if hasProfile reg localeName || hasDictionary reg localeName false then reg
  else
    { reg with dictionaries := assocSet reg.dictionaries localeName freshEntry
               dictionariesBeingLoaded := localeName :: reg.dictionariesBeingLoaded }

/-- The environment for the asynchronous load callbacks: `new Typo(locale,
affixData, dictionaryData)` is the external Lexicon constructor. -/
structure LoadEnv where
  typoFactory : Str → Option Str → Option Str → TypoModel

/-- Source `_performTypoInitializationOnLocale(localeName)`: once both halves
are loaded, construct the Typo instance, mark the entry initialized,
deregister the pending load and trigger `dictionaryLoaded`. -/
def performTypoInitializationOnLocale (env : LoadEnv) (reg : Registry)
    (localeName : Str) : Registry :=
  match assocFind reg.dictionaries localeName with
  | none => reg
  | some e =>
    if e.affixLoaded = .loaded ∧ e.dictionaryLoaded = .loaded then
      { reg with
          dictionaries := assocUpdate reg.dictionaries localeName fun e' =>
            { e' with typo := some (env.typoFactory localeName e.affixData e.dictionaryData)
                      initialized := true }
          dictionariesBeingLoaded := reg.dictionariesBeingLoaded.filter (· ≠ localeName)
          events := reg.events ++ [REvent.dictionaryLoaded localeName]
          typoConstructions := reg.typoConstructions + 1 }
    else reg

/-- Source `_checkDictionaryForCleanUp(localeName)`: only when *both* halves
are `null` (failed) is the entry unloaded, the pending load deregistered
and `dictionaryFailedToLoad` triggered. -/
def checkDictionaryForCleanUp (reg : Registry) (localeName : Str) : Registry :=
  match assocFind reg.dictionaries localeName with
  | none => reg
  | some e =>
    if e.affixLoaded = .failed ∧ e.dictionaryLoaded = .failed then
      let reg' := unloadDictionary reg localeName
      { reg' with
          dictionariesBeingLoaded := reg'.dictionariesBeingLoaded.filter (· ≠ localeName)
          events := reg'.events ++ [REvent.dictionaryFailedToLoad localeName] }
    else reg

/-- Outcome of one asynchronous file read. -/
inductive ReadOutcome where
  | ok (data : Str)
  | err

/-- The affix-file read callback of `_initializeDictionaryData`. -/
def applyAffixRead (env : LoadEnv) (reg : Registry) (localeName : Str)
    (o : ReadOutcome) : Registry :=
  match o with
  | .ok d =>
    performTypoInitializationOnLocale env
      { reg with dictionaries := assocUpdate reg.dictionaries localeName fun e =>
          { e with affixData := some d, affixLoaded := .loaded } }
      localeName
  | .err =>
    checkDictionaryForCleanUp
      { reg with dictionaries := assocUpdate reg.dictionaries localeName fun e =>
          { e with affixLoaded := .failed } }
      localeName

/-- The dictionary-file read callback of `_initializeDictionaryData`. -/
def applyDictionaryRead (env : LoadEnv) (reg : Registry) (localeName : Str)
    (o : ReadOutcome) : Registry :=
  match o with
  | .ok d =>
    performTypoInitializationOnLocale env
      { reg with dictionaries := assocUpdate reg.dictionaries localeName fun e =>
          { e with dictionaryData := some d, dictionaryLoaded := .loaded } }
      localeName
  | .err =>
    checkDictionaryForCleanUp
      { reg with dictionaries := assocUpdate reg.dictionaries localeName fun e =>
          { e with dictionaryLoaded := .failed } }
      localeName

/-- The profile loop inside `check`: iterate the profile's items; a Ready
dictionary accepting the word short-circuits to `true`; a missing or
not-yet-initialized dictionary triggers `loadDictionary` as a side effect
and is skipped; after the loop the word is assumed incorrect. -/
def checkProfileLoop (reg : Registry) (word : Str) :
    List ProfileItem → Except JsFault (Option Bool) × Registry
  | [] => (.ok (some false), reg)
  | item :: rest =>
    if hasDictionary reg item.name true then
      match assocFind reg.dictionaries item.name with
      | some e =>
        match e.typo with
        | none => (.error .nullDereference, reg)
        | some t =>
          if t.check word then (.ok (some true), reg)
          else checkProfileLoop reg word rest
      | none => (.error .nullDereference, reg)
    else checkProfileLoop (loadDictionary reg item.name) word rest

/-- The bare-locale tail of `check`. -/
def checkBareLocale (reg : Registry) (word localeName : Str) :
    Except JsFault (Option Bool) × Registry :=
  if hasDictionary reg localeName true then
    match assocFind reg.dictionaries localeName with
    | some e =>
      match e.typo with
      | none => (.error .nullDereference, reg)
      | some t => (.ok (some (t.check word)), reg)
    | none => (.error .nullDereference, reg)
  else (.ok none, reg)

/-- Source `check(word, localeName)` from DictionaryManager.js.  A `none` locale
argument models the JS `undefined` parameter (replaced by the default
locale); the result is `true`/`false`/`null` or a JS fault, paired with
the registry as mutated by the side-effecting loads. -/
def check (reg : Registry) (word : Str) (localeArg : Option Str) :
    Except JsFault (Option Bool) × Registry :=
  let localeName := localeArg.getD reg.defaultLocale
  if hasProfile reg localeName then
    match getProfileItems reg localeName with
    | some items => checkProfileLoop reg word items
    | none => checkBareLocale reg word localeName
  else checkBareLocale reg word localeName

/-- Source `suggest(word, localeName)` from DictionaryManager.js.  `!localeName`
is JS-falsy for both an omitted argument and the empty string; note the
`hasDictionary` call omits `safeMode`, so mere *existence* of the entry
is enough to reach `...typo.suggest(word)`. -/
def suggest (reg : Registry) (word : Str) (localeArg : Option Str) :
    Except JsFault (Option (List Str)) :=
  let localeName :=
    match localeArg with
    | none => reg.defaultLocale
    | some l => if l.isEmpty then reg.defaultLocale else l
  if hasDictionary reg localeName false then
    match assocFind reg.dictionaries localeName with
    | some e =>
      match e.typo with
      | none => .error .nullDereference
      | some t => .ok (some (t.suggestions word))
    | none => .error .nullDereference
  else .ok none

/-! ## Helper lemmas -/

theorem length_dropWhile_le (p : Char → Bool) (l : Str) :
    (l.dropWhile p).length ≤ l.length := by
  induction l with
  | nil => simp
  | cons a t ih =>
    by_cases h : p a
    · simp [List.dropWhile_cons, h]
      omega
    · simp [List.dropWhile_cons, h]

theorem endsWith_concat_self (l : Str) (c : Char) : endsWith (l ++ [c]) [c] = true := by
  simp [endsWith, List.isSuffixOf_iff_suffix]

theorem endsWith_concat_ne (l : Str) (a c : Char) (h : a ≠ c) :
    endsWith (l ++ [c]) [a] = false := by
  rw [Bool.eq_false_iff]
  intro hs
  rw [endsWith, List.isSuffixOf_iff_suffix] at hs
  obtain ⟨t, ht⟩ := hs
  have h2 : (l ++ [c]).getLast? = some c := by simp
  rw [← ht] at h2
  simp at h2
  exact h h2

theorem endsWith_concat_pair_ne (l : Str) (a b c : Char) (h : b ≠ c) :
    endsWith (l ++ [c]) [a, b] = false := by
  rw [Bool.eq_false_iff]
  intro hs
  rw [endsWith, List.isSuffixOf_iff_suffix] at hs
  obtain ⟨t, ht⟩ := hs
  have h2 : (l ++ [c]).getLast? = some c := by simp
  rw [← ht] at h2
  have h3 : (t ++ [a, b]).getLast? = some b := by
    have harr : t ++ [a, b] = (t ++ [a]) ++ [b] := by simp
    rw [harr]; simp
  rw [h2] at h3
  simp at h3
  exact h h3.symm

theorem startsWith_cons_self (c : Char) (l : Str) : startsWith (c :: l) [c] = true := by
  simp [startsWith, List.isPrefixOf]

theorem startsWith_cons_ne (a c : Char) (l : Str) (h : a ≠ c) :
    startsWith (c :: l) [a] = false := by
  simp [startsWith, List.isPrefixOf]
  intro hac
  exact absurd hac h

theorem dropWhile_cons_of_false {p : Char → Bool} {a : Char} {t : Str}
    (h : p a = false) : (a :: t).dropWhile p = a :: t := by
  simp [List.dropWhile_cons, h]

theorem dropWhile_eq_self_of_all {p : Char → Bool} {m : Str}
    (h : ∀ x ∈ m, p x = false) : m.dropWhile p = m := by
  cases m with
  | nil => rfl
  | cons a t => exact dropWhile_cons_of_false (h a (List.mem_cons_self a t))

/-- Source `trimChar` on a word wrapped in the trimmed character recovers the
inner word, provided the inner word does not contain that character. -/
theorem trimChar_wrap (c : Char) (l : Str) (h : ∀ x ∈ l, (x == c) = false) :
    trimChar (c :: (l ++ [c])) c = l := by
  unfold trimChar
  have h1 : (c :: (l ++ [c])).dropWhile (· == c) = (l ++ [c]).dropWhile (· == c) := by
    simp [List.dropWhile_cons]
  rw [h1]
  cases l with
  | nil => simp [List.dropWhile_cons]
  | cons a t =>
    have h2 : ((a :: t) ++ [c]).dropWhile (· == c) = (a :: t) ++ [c] := by
      exact dropWhile_cons_of_false (h a (List.mem_cons_self a t))
    rw [h2]
    have h3 : ((a :: t) ++ [c]).reverse = c :: (a :: t).reverse := by simp
    rw [h3]
    have h4 : (c :: (a :: t).reverse).dropWhile (· == c) =
        ((a :: t).reverse).dropWhile (· == c) := by
      simp [List.dropWhile_cons]
    rw [h4]
    have h5 : ((a :: t).reverse).dropWhile (· == c) = (a :: t).reverse := by
      apply dropWhile_eq_self_of_all
      intro x hx
      exact h x (List.mem_reverse.mp hx)
    rw [h5, List.reverse_reverse]

/-! ## Theorems for the claims -/

/-- A classifier environment with the source's default flag values
(`_spellingIgnoreUppercase = true`, both experimental features enabled)
and the spell checker initialized, over an arbitrary dictionary check. -/
def spellEnvDefaults (dm : Str → Option Bool) : SpellEnv :=
  { initialized := true
    spellingIgnoreUppercase := true
    attemptIntelligentQuoteDetection := true
    automaticallyDetectCamelCaseWords := true
    dmCheck := dm }

/-- Claim C10: for every word whose leading prefix parses as a number
under `parseFloat` (e.g. `"3rd"`, `"10px"`), `_hasCorrectSpelling`
returns `true` regardless of the dictionary state, because the numeric
heuristic tests `!isNaN(parseFloat(word))`. -/
theorem c10_numeric_prefix_is_correct (env : SpellEnv) (word : Str)
    (h : jsParseFloatIsNum word = true) :
    hasCorrectSpelling env word = some true := by
  unfold hasCorrectSpelling
  by_cases hc : isCommonTerm word = true <;> simp [hc, h]

/-- Witness for C10 at the concrete word `"3rd"`. -/
theorem c10_witness :
    jsParseFloatIsNum "3rd".data = true ∧
      hasCorrectSpelling (spellEnvDefaults fun _ => none) "3rd".data = some true :=
  ⟨by decide, c10_numeric_prefix_is_correct _ _ (by decide)⟩

/-- An unconditional ignore-rule file (no condition fields populated). -/
def c1Rule : IgnoreRule := { ignore := ["notaword".data] }

/-- Claim C1 (code evaluation): after loading the unconditional rule file
`{ignore: ["notaword"]}`, `shouldIgnore("notaword", ctx)` is `false` for
every before-context — the word is still flagged, contradicting the
claim, because `_loadUtilityFile` discards the result of
`_alwaysIgnoreCachedList.concat(...)`. -/
theorem c1_unconditional_ignore_word_not_ignored (ctx : Str) :
    shouldIgnore (loadUtilityFile initUtilityState c1Rule) "notaword".data ctx = false := by
  have hload : loadUtilityFile initUtilityState c1Rule =
      { initUtilityState with alwaysIgnoreFiles := [c1Rule] } := by rfl
  rw [hload]
  simp [shouldIgnore, shouldWordBeIgnoredWithContext, initUtilityState]

/-- With the spec's intended `_loadUtilityFile` (the `concat` result kept),
the same word is ignored for every before-context. -/
theorem c1_spec_model_ignores_word (ctx : Str) :
    shouldIgnore (loadUtilityFileSpec initUtilityState c1Rule) "notaword".data ctx = true := by
  have hc : "notaword".data ∈ (loadUtilityFileSpec initUtilityState c1Rule).alwaysIgnoreCachedList := by
    decide
  simp [shouldIgnore, hc]

/-- A registry whose sole entry is `en_US`, still `Loading`: both halves
pending and the `typo` handle still `null`. -/
def c8Registry : Registry :=
  { defaultLocale := "en_US".data
    dictionaries := [("en_US".data, freshEntry)]
    dictionariesBeingLoaded := ["en_US".data]
    profiles := []
    profilesInitialized := false
    events := []
    typoConstructions := 0 }

/-- Claim C8 (code evaluation): with the `en_US` entry present but still
`Loading`, `suggest("hello", "en_US")` dereferences the `null` `typo`
handle (`hasDictionary` is called without `safeMode`, so mere existence
of the entry suffices to reach `...typo.suggest(word)`), faulting instead
of returning `null`. -/
theorem c8_suggest_faults_while_loading :
    suggest c8Registry "hello".data (some "en_US".data) = .error .nullDereference := by
  rfl

/-- An entry in the `Ready` state built around a given Typo instance. -/
def readyEntry (t : TypoModel) : DictEntry :=
  { initialized := true
    dictionaryLoaded := .loaded
    affixLoaded := .loaded
    affixData := some []
    dictionaryData := some []
    typo := some t }

/-- The companion fact for C8: with the same locale `Ready`, `suggest`
returns that lexicon's suggestion sequence, and with no entry at all it
returns `null`. -/
theorem c8_suggest_ready_and_absent (t : TypoModel) (w : Str) :
    suggest { c8Registry with dictionaries := [("en_US".data, readyEntry t)] } w
        (some "en_US".data) = .ok (some (t.suggestions w)) ∧
      suggest { c8Registry with dictionaries := [] } w (some "en_US".data) = .ok none := by
  constructor <;> rfl

/-- The empty registry: nothing loaded, loading, or profiled. -/
def emptyRegistry : Registry :=
  { defaultLocale := "en_US".data
    dictionaries := []
    dictionariesBeingLoaded := []
    profiles := []
    profilesInitialized := false
    events := []
    typoConstructions := 0 }

/-- Claim C7: a second `loadDictionary(L)` while `L` is `Loading` leaves
the registry unchanged, and — whichever order the affix and word-list
halves complete in — exactly one `dictionaryLoaded` notification is
emitted and the Typo instance is constructed exactly once. -/
theorem c7_load_dedup_and_single_construction (env : LoadEnv) (l a d : Str) :
    loadDictionary (loadDictionary emptyRegistry l) l = loadDictionary emptyRegistry l ∧
    (applyDictionaryRead env
        (applyAffixRead env (loadDictionary emptyRegistry l) l (.ok a)) l (.ok d)).events =
      [REvent.dictionaryLoaded l] ∧
    (applyDictionaryRead env
        (applyAffixRead env (loadDictionary emptyRegistry l) l (.ok a)) l (.ok d)).typoConstructions = 1 ∧
    (applyAffixRead env
        (applyDictionaryRead env (loadDictionary emptyRegistry l) l (.ok d)) l (.ok a)).events =
      [REvent.dictionaryLoaded l] ∧
    (applyAffixRead env
        (applyDictionaryRead env (loadDictionary emptyRegistry l) l (.ok d)) l (.ok a)).typoConstructions = 1 := by
  have h1 : loadDictionary emptyRegistry l =
      { emptyRegistry with dictionaries := [(l, freshEntry)]
                           dictionariesBeingLoaded := [l] } := by
    simp [loadDictionary, emptyRegistry, hasProfile, hasDictionary, assocFind, assocSet]
  rw [h1]
  refine ⟨?_, ?_, ?_, ?_, ?_⟩ <;>
    simp [loadDictionary, hasProfile, hasDictionary, assocFind, assocSet, assocUpdate,
      applyAffixRead, applyDictionaryRead, performTypoInitializationOnLocale,
      checkDictionaryForCleanUp, unloadDictionary, emptyRegistry, freshEntry]

/-- Claim C3: when both halves of a locale load fail (in either order),
the entry is removed from the registry and exactly one
`dictionaryFailedToLoad` notification is emitted for that locale. -/
theorem c3_both_halves_failed_cleanup (env : LoadEnv) (l : Str) :
    assocFind (applyDictionaryRead env
        (applyAffixRead env (loadDictionary emptyRegistry l) l .err) l .err).dictionaries l =
      none ∧
    (applyDictionaryRead env
        (applyAffixRead env (loadDictionary emptyRegistry l) l .err) l .err).events =
      [REvent.dictionaryUnloaded l, REvent.dictionaryFailedToLoad l] ∧
    assocFind (applyAffixRead env
        (applyDictionaryRead env (loadDictionary emptyRegistry l) l .err) l .err).dictionaries l =
      none ∧
    (applyAffixRead env
        (applyDictionaryRead env (loadDictionary emptyRegistry l) l .err) l .err).events =
      [REvent.dictionaryUnloaded l, REvent.dictionaryFailedToLoad l] := by
  have h1 : loadDictionary emptyRegistry l =
      { emptyRegistry with dictionaries := [(l, freshEntry)]
                           dictionariesBeingLoaded := [l] } := by
    simp [loadDictionary, emptyRegistry, hasProfile, hasDictionary, assocFind, assocSet]
  rw [h1]
  refine ⟨?_, ?_, ?_, ?_⟩ <;>
    simp [applyAffixRead, applyDictionaryRead, performTypoInitializationOnLocale,
      checkDictionaryForCleanUp, unloadDictionary, assocFind, assocUpdate, assocRemove,
      emptyRegistry, freshEntry]

/-- A registry holding a profile `P = [A, B]` (in the given order) whose
two referenced dictionaries are both `Ready`. -/
def c6Registry (P A B : Str) (tA tB : TypoModel) : Registry :=
  { defaultLocale := "en_US".data
    dictionaries := [(A, readyEntry tA), (B, readyEntry tB)]
    dictionariesBeingLoaded := []
    profiles := [(P, [⟨A, "dictionary".data⟩, ⟨B, "dictionary".data⟩])]
    profilesInitialized := true
    events := []
    typoConstructions := 0 }

/-- Claim C6: for a profile `P = [A, B]` whose item list is available and
whose two referenced dictionaries are both `Ready`, `check(w, P)` is
`true` exactly when at least one of the two dictionaries accepts `w`,
and the result is independent of the order of `A` and `B` in the
profile (OR semantics with first-match short-circuit). -/
theorem c6_profile_or_semantics (P A B : Str) (tA tB : TypoModel) (w : Str)
    (hAB : A ≠ B) :
    (check (c6Registry P A B tA tB) w (some P)).1 =
        .ok (some (tA.check w || tB.check w)) ∧
      (check (c6Registry P B A tB tA) w (some P)).1 =
        .ok (some (tA.check w || tB.check w)) := by
  have hBA : B ≠ A := fun h => hAB h.symm
  constructor <;>
    rcases h1 : tA.check w <;> rcases h2 : tB.check w <;>
      simp [check, c6Registry, hasProfile, getProfileItems, assocFind, checkProfileLoop,
        hasDictionary, readyEntry, h1, h2, hAB, hBA]

/-- Witness for C6 with two concrete single-word dictionaries: the word
is only in the second dictionary, yet the profile check accepts it in
both profile orders. -/
theorem c6_witness :
    ("en_AU".data : Str) ≠ "medical_terms".data ∧
      (check (c6Registry "my_en".data "en_AU".data "medical_terms".data
            ⟨fun w => w == "colour".data, fun _ => []⟩
            ⟨fun w => w == "aorta".data, fun _ => []⟩) "aorta".data
          (some "my_en".data)).1 =
        .ok (some ((("aorta".data : Str) == "colour".data) ||
          (("aorta".data : Str) == "aorta".data))) ∧
      (check (c6Registry "my_en".data "medical_terms".data "en_AU".data
            ⟨fun w => w == "aorta".data, fun _ => []⟩
            ⟨fun w => w == "colour".data, fun _ => []⟩) "aorta".data
          (some "my_en".data)).1 =
        .ok (some ((("aorta".data : Str) == "colour".data) ||
          (("aorta".data : Str) == "aorta".data))) := by
  refine ⟨by decide, ?_⟩
  exact c6_profile_or_semantics "my_en".data "en_AU".data "medical_terms".data
    ⟨fun w => w == "colour".data, fun _ => []⟩
    ⟨fun w => w == "aorta".data, fun _ => []⟩ "aorta".data (by decide)

/-- The `dictionaryLoaded` handler of SpellChecker.js: it sets
`_initialized` irrespective of which locale just loaded. -/
def onDictionaryLoaded (env : SpellEnv) (_localeName : Str) : SpellEnv :=
  { env with initialized := true }

/-- A registry in which a dictionary for `en_US` is `Ready` while the
active (default) locale `fr_FR` has no entry and no profile. -/
def c4Registry : Registry :=
  { defaultLocale := "fr_FR".data
    dictionaries := [("en_US".data, readyEntry ⟨fun _ => true, fun _ => []⟩)]
    dictionariesBeingLoaded := []
    profiles := []
    profilesInitialized := true
    events := [REvent.dictionaryLoaded "en_US".data]
    typoConstructions := 1 }

/-- Source `DictionaryManager.check` for the active locale of `c4Registry`:
always `null`, because `fr_FR` has no ready lexicon (the check never
faults and triggers no load in this state). -/
def c4DmCheck (w : Str) : Option Bool :=
  match check c4Registry w none with
  | (.ok r, _) => r
  | (.error _, _) => none

/-- The active locale of `c4Registry` has no ready lexicon: every check
against it is `null`. -/
theorem c4DmCheck_eq_none (w : Str) : c4DmCheck w = none := by
  simp [c4DmCheck, check, c4Registry, hasProfile, getProfileItems, assocFind,
    checkBareLocale, hasDictionary]

/-- The classifier state after `en_US` finished loading (so the handler
set `_initialized = true`) while the spell checker targets `fr_FR`,
which has no ready lexicon. -/
def c4Env : SpellEnv :=
  onDictionaryLoaded
    { initialized := false
      spellingIgnoreUppercase := true
      attemptIntelligentQuoteDetection := true
      automaticallyDetectCamelCaseWords := true
      dmCheck := c4DmCheck }
    "en_US".data

/-- Claim C4 counterexample: in a state where the active locale `fr_FR`
has no ready lexicon (`c4DmCheck` is constantly `null`) but another
locale's load set `_initialized`, the overlay token call on `"zq"` does
return the error style — the word is flagged, contradicting the claim
that no Incorrect verdict is produced in such a state. -/
theorem c4_counterexample :
    c4Env.dmCheck "zq".data = none ∧
      (tokenStep c4Env initUtilityState initScanState "zq".data).style = some errorStyle := by
  constructor
  · exact c4DmCheck_eq_none "zq".data
  · rfl

/-- Claim C4 amended: the no-verdict gate is the *global* `_initialized`
flag, not the readiness of the active locale: whenever that flag is
false, every overlay token call consumes the whole stream and returns no
style and no word verdict.  (Once any locale's `dictionaryLoaded` event
has set the flag, words checked against an unready active locale are
flagged, as `c4_counterexample` shows.) -/
theorem c4_amended_uninitialized_no_verdict (env : SpellEnv) (ust : UtilityState)
    (st : ScanState) (stream : Str) (h : env.initialized = false) :
    (tokenStep env ust st stream).style = none ∧
      (tokenStep env ust st stream).rest = [] ∧
      (tokenStep env ust st stream).emitted = none := by
  unfold tokenStep
  simp [h]

/-- Witness for the amended C4 at a concrete uninitialized environment. -/
theorem c4_witness :
    ({ c4Env with initialized := false } : SpellEnv).initialized = false ∧
      ((tokenStep { c4Env with initialized := false } initUtilityState initScanState
          "zq qz".data).style = none ∧
        (tokenStep { c4Env with initialized := false } initUtilityState initScanState
          "zq qz".data).rest = [] ∧
        (tokenStep { c4Env with initialized := false } initUtilityState initScanState
          "zq qz".data).emitted = none) :=
  ⟨rfl, c4_amended_uninitialized_no_verdict _ initUtilityState initScanState "zq qz".data rfl⟩

/-- A dictionary state accepting exactly `"foo"` and `"bar"` (note:
lower-case `bar`, not the `"Bar"` produced by `splitByUpperCase`). -/
def c2Dictionary (w : Str) : Option Bool :=
  some ((w == "foo".data) || (w == "bar".data))

/-- Claim C2 counterexample: with a dictionary for which
`check("foo") = true` and `check("bar") = true`, classifying `"fooBar"`
is *not* Correct — `splitByUpperCase` yields the parts `["foo", "Bar"]`
and the dictionary is consulted for `"Bar"`, not `"bar"`. -/
theorem c2_counterexample :
    truthy (c2Dictionary "foo".data) = true ∧
      truthy (c2Dictionary "bar".data) = true ∧
      hasCorrectSpelling (spellEnvDefaults c2Dictionary) "fooBar".data ≠ some true := by
  refine ⟨by decide, by decide, ?_⟩
  decide

/-- Claim C2 amended: classifying `"fooBar"` yields Correct exactly when
the dictionary check passes for both uppercase-split parts `"foo"` and
`"Bar"` (truthily, so a `null` check also fails the part). -/
theorem c2_amended_camel_parts (dm : Str → Option Bool) :
    hasCorrectSpelling (spellEnvDefaults dm) "fooBar".data = some true ↔
      (truthy (dm "foo".data) = true ∧ truthy (dm "Bar".data) = true) := by
  have h1 : isCommonTerm "fooBar".data = false := by decide
  have h2 : jsParseFloatIsNum "fooBar".data = false := by decide
  have h3 : (("fooBar".data : Str) == jsToUpperStr "fooBar".data) = false := by decide
  have h4 : endsWith "fooBar".data ['\'', 's'] = false := by decide
  have h5 : endsWith "fooBar".data ['\''] = false := by decide
  have h6 : startsWith "fooBar".data ['\''] = false := by decide
  have h7 : startsWith "fooBar".data ['"'] = false := by decide
  have h8 : endsWith "fooBar".data ['"'] = false := by decide
  have h9 : isCamelCase "fooBar".data = true := by decide
  have h10 : splitByUpperCase "fooBar".data = ["foo".data, "Bar".data] := by decide
  simp [hasCorrectSpelling, spellEnvDefaults, quoteAndCamelPart,
    checkSpellingOfCamelCaseWord, h1, h2, h3, h4, h5, h6, h7, h8, h9, h10]

/-- A word starting with a quote character is never a curated common
term. -/
theorem isCommonTerm_quote (rest : Str) : isCommonTerm ('\'' :: rest) = false := by
  simp [isCommonTerm, commonProgrammingKeywords]

/-- A word starting with a quote character never parses as a number. -/
theorem jsParseFloatIsNum_quote (rest : Str) :
    jsParseFloatIsNum ('\'' :: rest) = false := by
  have h1 : isJsSpace '\'' = false := by decide
  simp [jsParseFloatIsNum, List.dropWhile_cons, h1, List.isPrefixOf]

/-- A dictionary state accepting exactly the camel-case word `"fooBar"`
itself (but no part of it). -/
def c5Dictionary (w : Str) : Option Bool := some (w == "fooBar".data)

/-- Claim C5 counterexample: `"fooBar"` contains no quote characters and
`check("fooBar") = true`, yet classifying `"'fooBar'"` is *not* Correct:
because the inner word is camel-case shaped, the quote heuristic checks
its uppercase-split parts instead of the inner word itself, and `"foo"`
fails the dictionary check. -/
theorem c5_counterexample :
    ("fooBar".data.all (fun c => !(c == '\'') && !(c == '"'))) = true ∧
      truthy (c5Dictionary "fooBar".data) = true ∧
      hasCorrectSpelling (spellEnvDefaults c5Dictionary) "'fooBar'".data ≠ some true := by
  refine ⟨by decide, by decide, ?_⟩
  decide

/-- Claim C5 amended: for every word `inner` containing no quote
characters that is *not* camel-case shaped, if `check(inner) = true` then
classifying `"'" + inner + "'"` yields Correct.  (For camel-case shaped
inner words the verdict is instead that of the uppercase-split part
check, as `c5_counterexample` shows.) -/
theorem c5_amended_quote_roundtrip (dm : Str → Option Bool) (inner : Str)
    (hq : ∀ x ∈ inner, (x == '\'') = false ∧ (x == '"') = false)
    (hcc : isCamelCase inner = false)
    (hchk : dm inner = some true) :
    hasCorrectSpelling (spellEnvDefaults dm) ('\'' :: (inner ++ ['\''])) = some true := by
  have hw : ('\'' :: (inner ++ ['\'']) : Str) = ('\'' :: inner) ++ ['\''] := by simp
  have hq1 : ∀ x ∈ inner, (x == '\'') = false := fun x hx => (hq x hx).1
  have hct : isCommonTerm ('\'' :: (inner ++ ['\''])) = false := isCommonTerm_quote _
  have hpf : jsParseFloatIsNum ('\'' :: (inner ++ ['\''])) = false :=
    jsParseFloatIsNum_quote _
  have hsw : startsWith ('\'' :: (inner ++ ['\''])) ['\''] = true :=
    startsWith_cons_self _ _
  have hew : endsWith ('\'' :: (inner ++ ['\''])) ['\''] = true := by
    rw [hw]; exact endsWith_concat_self _ _
  have hes : endsWith ('\'' :: (inner ++ ['\''])) ['\'', 's'] = false := by
    rw [hw]; exact endsWith_concat_pair_ne _ _ _ _ (by decide)
  have hswd : startsWith ('\'' :: (inner ++ ['\''])) ['"'] = false :=
    startsWith_cons_ne _ _ _ (by decide)
  have hewd : endsWith ('\'' :: (inner ++ ['\''])) ['"'] = false := by
    rw [hw]; exact endsWith_concat_ne _ _ _ (by decide)
  have htrim : trimChar ('\'' :: (inner ++ ['\''])) '\'' = inner := by
    have := trimChar_wrap '\'' inner hq1
    simpa using this
  by_cases hUp : (('\'' :: (inner ++ ['\'']) : Str) ==
      jsToUpperStr ('\'' :: (inner ++ ['\'']))) = true
  · simp [hasCorrectSpelling, spellEnvDefaults, hct, hpf, hUp]
  · have hUp' : (('\'' :: (inner ++ ['\'']) : Str) ==
        jsToUpperStr ('\'' :: (inner ++ ['\'']))) = false := by
      rwa [Bool.not_eq_true] at hUp
    simp [hasCorrectSpelling, spellEnvDefaults, quoteAndCamelPart,
      checkSpellingBetweenCharacter, hct, hpf, hUp', hes, hsw, hew, hswd, hewd,
      htrim, hcc, hchk]

/-- Witness for the amended C5 at the concrete inner word `"qwerty"`. -/
theorem c5_witness :
    (∀ x ∈ ("qwerty".data : Str), (x == '\'') = false ∧ (x == '"') = false) ∧
      isCamelCase "qwerty".data = false ∧
      (fun w => some (w == "qwerty".data) : Str → Option Bool) "qwerty".data = some true ∧
      hasCorrectSpelling (spellEnvDefaults fun w => some (w == "qwerty".data))
        ('\'' :: ("qwerty".data ++ ['\''])) = some true :=
  ⟨by decide, by decide, by decide,
    c5_amended_quote_roundtrip (fun w => some (w == "qwerty".data)) "qwerty".data
      (by decide) (by decide) (by decide)⟩

/-- Each `token` call on a non-empty stream consumes at least one
character. -/
theorem tokenStep_rest_length_lt (env : SpellEnv) (ust : UtilityState) (st : ScanState)
    (c : Char) (cs : Str) :
    (tokenStep env ust st (c :: cs)).rest.length < (c :: cs).length := by
  unfold tokenStep
  by_cases hinit : env.initialized
  · by_cases hsep : isWordSeparator c
    · simp [hinit, hsep]
    · have hd : (c :: cs).dropWhile (fun ch => !isWordSeparator ch) =
          cs.dropWhile (fun ch => !isWordSeparator ch) := by
        simp [List.dropWhile_cons, hsep]
      have := length_dropWhile_le (fun ch => !isWordSeparator ch) cs
      simp [hinit, hsep, hd]
      omega
  · simp [hinit]

/-- Repeated `token` calls over a character stream, collecting each
scanned word together with the before-context it was delivered with. -/
def runOverlay (env : SpellEnv) (ust : UtilityState) (st : ScanState) :
    Str → List (Str × Str)
  | [] => []
  | c :: cs =>
    let r := tokenStep env ust st (c :: cs)
    (match r.emitted with
     | some t => [t]
     | none => []) ++ runOverlay env ust r.state r.rest
termination_by l => l.length
decreasing_by
  exact tokenStep_rest_length_lt _ _ _ _ _

/-- The reference scanner: a word token is paired with exactly the run
of separator characters consumed since the previous word token. -/
def scanRef (sep : Str) : Str → List (Str × Str)
  | [] => []
  | c :: cs =>
    if isWordSeparator c then scanRef (sep ++ [c]) cs
    else
      (c :: cs.takeWhile (fun ch => !isWordSeparator ch), sep) ::
        scanRef [] (cs.dropWhile (fun ch => !isWordSeparator ch))
termination_by l => l.length
decreasing_by
  all_goals
    first
      | exact Nat.lt_succ_of_le (Nat.le_refl _)
      | exact Nat.lt_succ_of_le (length_dropWhile_le _ _)

theorem c9_aux (env : SpellEnv) (ust : UtilityState) (h : env.initialized = true) :
    ∀ (n : Nat) (l : Str), l.length ≤ n → ∀ st : ScanState,
      runOverlay env ust st l =
        scanRef (if st.lastWordSeparatorDirty then [] else st.lastWordSeparator) l := by
  intro n
  induction n with
  | zero =>
    intro l hl st
    have hnil : l = [] := List.length_eq_zero.mp (Nat.le_zero.mp hl)
    subst hnil
    rw [runOverlay.eq_def, scanRef.eq_def]
  | succ n ih =>
    intro l hl st
    cases l with
    | nil => rw [runOverlay.eq_def, scanRef.eq_def]
    | cons c cs =>
      have hcs : cs.length ≤ n := by simpa using hl
      by_cases hsep : isWordSeparator c = true
      · have hstep : tokenStep env ust st (c :: cs) =
            { style := none
              state := { lastWordSeparatorDirty := false
                         lastWordSeparator :=
                           (if st.lastWordSeparatorDirty then [] else st.lastWordSeparator) ++ [c] }
              rest := cs, emitted := none } := by
          unfold tokenStep
          by_cases hd : st.lastWordSeparatorDirty <;> simp [h, hsep, hd]
        rw [runOverlay.eq_def, scanRef.eq_def]
        simp [hstep, hsep, ih cs hcs]
      · have hdw : (c :: cs).dropWhile (fun ch => !isWordSeparator ch) =
            cs.dropWhile (fun ch => !isWordSeparator ch) := by
          simp [List.dropWhile_cons, hsep]
        have hrest : (cs.dropWhile (fun ch => !isWordSeparator ch)).length ≤ n :=
          le_trans (length_dropWhile_le _ cs) hcs
        have hstep : tokenStep env ust st (c :: cs) =
            { style := if !truthy (hasCorrectSpelling env
                  (c :: cs.takeWhile (fun ch => !isWordSeparator ch))) &&
                  !shouldIgnore ust (c :: cs.takeWhile (fun ch => !isWordSeparator ch))
                    (if st.lastWordSeparatorDirty then [] else st.lastWordSeparator)
                then some errorStyle else none
              state := { lastWordSeparatorDirty := true
                         lastWordSeparator :=
                           if st.lastWordSeparatorDirty then [] else st.lastWordSeparator }
              rest := cs.dropWhile (fun ch => !isWordSeparator ch)
              emitted := some (c :: cs.takeWhile (fun ch => !isWordSeparator ch),
                if st.lastWordSeparatorDirty then [] else st.lastWordSeparator) } := by
          unfold tokenStep
          by_cases hd : st.lastWordSeparatorDirty <;>
            simp [h, hsep, hd, List.takeWhile_cons, List.dropWhile_cons]
        rw [runOverlay.eq_def, scanRef.eq_def]
        simp [hstep, hsep, ih _ hrest]

/-- Claim C9: the before-context delivered with each word token emitted
by the overlay is exactly the run of separator characters consumed since
the previous word token — running the stateful `token` function (with
its dirty-flag discipline) over any stream agrees with the stateless
reference scanner, so no separator characters are lost or duplicated
between tokens. -/
theorem c9_scanner_invariant (env : SpellEnv) (ust : UtilityState) (st : ScanState)
    (l : Str) (h : env.initialized = true) :
    runOverlay env ust st l =
      scanRef (if st.lastWordSeparatorDirty then [] else st.lastWordSeparator) l :=
  c9_aux env ust h l.length l le_rfl st

/-- Witness for C9 on the concrete stream `"ab, c"` from a clean scanner
state. -/
theorem c9_witness :
    c4Env.initialized = true ∧
      runOverlay c4Env initUtilityState initScanState "ab, c".data =
        scanRef (if initScanState.lastWordSeparatorDirty then []
          else initScanState.lastWordSeparator) "ab, c".data :=
  ⟨rfl, c9_scanner_invariant c4Env initUtilityState initScanState "ab, c".data rfl⟩

end Linguistics
